import Mathlib

/-!
Verification of the OpenMDAO core (`openmdao/core/component.py` and
`openmdao/core/problem.py`) against its natural-language specification.

The Python source is shallowly embedded:

* dense float vectors become functions `Fin n → ℚ` or lists `List ℚ`
  (the claims under study are exact algebraic identities, not
  floating-point roundoff properties);
* Python dicts become association lists `List (key × value)` looked up
  with `alookup` (first entry wins, as for unique-keyed dicts);
* raising an exception becomes returning `Except.error`;
* external collaborators (the linear solver, the unit-conversion utility
  `get_conversion_tuple`, the finite-difference routine `fd_jacobian`,
  the per-unit `apply_linear` sweeps) are taken as explicit function
  parameters, exactly at the interface boundary the spec gives them.
-/

/-! ## Association lists (Python `dict` operations) -/

/-- Lookup in a Python dict modelled as an association list: the first
entry with the given key wins (dict keys are unique, so this is exact). -/
def alookup {α β : Type} [DecidableEq α] : List (α × β) → α → Option β
  | [], _ => none
  | kv :: rest, k => if kv.1 = k then some kv.2 else alookup rest k

/-- Python `d[k] = v`: overwrite the entry if the key is present,
otherwise append the new entry at the end (dicts preserve insertion
order). -/
def dict_assign {α β : Type} [DecidableEq α] (d : List (α × β)) (k : α) (v : β) :
    List (α × β) :=
  if (alookup d k).isSome then
    d.map (fun kv => if kv.1 = k then (k, v) else kv)
  else d ++ [(k, v)]

/-- Python `d1.update(d2)`: assign every entry of `d2` into `d1` in order. -/
def dict_update {α β : Type} [DecidableEq α] (d1 d2 : List (α × β)) : List (α × β) :=
  d2.foldl (fun d kv => dict_assign d kv.1 kv.2) d1

@[simp]
theorem alookup_nil {α β : Type} [DecidableEq α] (k : α) :
    alookup ([] : List (α × β)) k = none := rfl

@[simp]
theorem alookup_cons {α β : Type} [DecidableEq α] (kv : α × β) (rest : List (α × β)) (k : α) :
    alookup (kv :: rest) k = if kv.1 = k then some kv.2 else alookup rest k := rfl

theorem alookup_append {α β : Type} [DecidableEq α] (l1 l2 : List (α × β)) (k : α) :
    alookup (l1 ++ l2) k = (alookup l1 k).or (alookup l2 k) := by
  induction l1 with
  | nil => simp
  | cons kv rest ih =>
    by_cases h : kv.1 = k <;> simp [h, ih]

theorem alookup_eq_none_iff {α β : Type} [DecidableEq α] (l : List (α × β)) (k : α) :
    alookup l k = none ↔ k ∉ l.map Prod.fst := by
  induction l with
  | nil => simp
  | cons kv rest ih =>
    by_cases h : kv.1 = k
    · subst h; simp
    · have hne : ¬ k = kv.1 := fun he => h he.symm
      simp [h, ih, hne]

theorem mem_of_alookup_eq_some {α β : Type} [DecidableEq α] {l : List (α × β)} {k : α} {v : β}
    (h : alookup l k = some v) : (k, v) ∈ l := by
  induction l with
  | nil => simp at h
  | cons kv rest ih =>
    by_cases hk : kv.1 = k
    · simp [hk] at h
      subst hk h
      simp
    · simp [hk] at h
      exact List.mem_cons_of_mem _ (ih h)

theorem alookup_eq_some_of_mem {α β : Type} [DecidableEq α] {l : List (α × β)} {k : α} {v : β}
    (hnd : (l.map Prod.fst).Nodup) (h : (k, v) ∈ l) : alookup l k = some v := by
  induction l with
  | nil => simp at h
  | cons kv rest ih =>
    simp only [List.map_cons, List.nodup_cons] at hnd
    rcases List.mem_cons.mp h with h | h
    · subst h; simp
    · have hne : kv.1 ≠ k := by
        intro he
        exact hnd.1 (he ▸ (List.mem_map.mpr ⟨(k, v), h, rfl⟩))
      simp [hne, ih hnd.2 h]

theorem alookup_map_overwrite {α β : Type} [DecidableEq α] (d : List (α × β)) (k : α) (v : β)
    (t : α) :
    alookup (d.map (fun kv => if kv.1 = k then (k, v) else kv)) t =
      if t = k then (if (alookup d k).isSome then some v else none)
      else alookup d t := by
  induction d with
  | nil => by_cases h2 : t = k <;> simp [h2]
  | cons kv rest ih =>
    by_cases h1 : kv.1 = k
    · by_cases h2 : t = k
      · subst h2; simp [h1]
      · have hne : ¬ k = t := fun he => h2 he.symm
        have hne2 : ¬ kv.1 = t := fun he => hne (h1 ▸ he)
        simp [h1, h2, hne, hne2, ih]
    · by_cases h2 : t = k
      · subst h2
        simp [h1, ih]
      · by_cases h3 : kv.1 = t <;> simp [h1, h2, h3, ih]

theorem alookup_dict_assign {α β : Type} [DecidableEq α] (d : List (α × β)) (k : α) (v : β)
    (t : α) :
    alookup (dict_assign d k v) t = if t = k then some v else alookup d t := by
  unfold dict_assign
  by_cases hk : (alookup d k).isSome
  · rw [if_pos hk, alookup_map_overwrite]
    by_cases h2 : t = k <;> simp [h2, hk]
  · rw [if_neg hk, alookup_append]
    have hnone : alookup d k = none := by
      cases h : alookup d k
      · rfl
      · rw [h] at hk; simp at hk
    by_cases h2 : t = k
    · subst h2
      rw [hnone, if_pos rfl]
      show alookup [(t, v)] t = some v
      simp
    · have hne : ¬ k = t := fun he => h2 he.symm
      rw [if_neg h2]
      show Option.or (alookup d t) (if k = t then some v else none) = alookup d t
      rw [if_neg hne]
      cases alookup d t <;> rfl

theorem alookup_dict_update {α β : Type} [DecidableEq α] (d1 d2 : List (α × β)) (t : α)
    (hnd : (d2.map Prod.fst).Nodup) :
    alookup (dict_update d1 d2) t = (alookup d2 t).or (alookup d1 t) := by
  induction d2 generalizing d1 with
  | nil =>
    show alookup d1 t = Option.or none (alookup d1 t)
    rfl
  | cons kv rest ih =>
    simp only [List.map_cons, List.nodup_cons] at hnd
    show alookup (dict_update (dict_assign d1 kv.1 kv.2) rest) t = _
    rw [ih _ hnd.2, alookup_dict_assign]
    by_cases h2 : t = kv.1
    · have hrest : alookup rest t = none := by
        rw [alookup_eq_none_iff, h2]
        exact hnd.1
      rw [hrest, if_pos h2]
      have hhd : alookup (kv :: rest) t = some kv.2 := by
        simp [h2.symm]
      rw [hhd]
      rfl
    · have hne : ¬ kv.1 = t := fun he => h2 he.symm
      rw [if_neg h2]
      have hhd : alookup (kv :: rest) t = alookup rest t := by
        simp [hne]
      rw [hhd]

/-! ## Claim C1: residual evaluation (`Component.apply_nonlinear`)

Embedding of `component.py` lines 233-262.  The user-supplied
`solve_nonlinear` (the "compute outputs from inputs" routine of an
explicit component) is a parameter: it reads the params, unknowns and
resids vectors and produces the freshly computed unknowns vector; per the
source comment "explicit comps don't put anything in resids", it leaves
the resids vector alone. -/

/-- Embedding of `Component.apply_nonlinear`: the in-place residual trick.
Returns the final `(unknowns, resids)` pair. -/
def apply_nonlinear {m n : Nat}
    (solve_nonlinear : (Fin m → ℚ) → (Fin n → ℚ) → (Fin n → ℚ) → (Fin n → ℚ))
    (params : Fin m → ℚ) (unknowns _resids : Fin n → ℚ) :
    (Fin n → ℚ) × (Fin n → ℚ) :=
  -- resids.vec[:] = -unknowns.vec[:]
  let resids1 := fun i => -unknowns i
  -- self.solve_nonlinear(params, unknowns, resids)
  let unknowns1 := solve_nonlinear params unknowns resids1
  -- resids.vec[:] += unknowns.vec[:]
  let resids2 := fun i => resids1 i + unknowns1 i
  -- unknowns.vec[:] -= resids.vec[:]
  let unknowns2 := fun i => unknowns1 i - resids2 i
  (unknowns2, resids2)

/-- Claim C1: for every component and every state of its
params/unknowns/resids vectors, `apply_nonlinear` leaves the unknowns
vector numerically equal to its pre-call value, and leaves the residuals
vector equal to the freshly computed outputs (the result of
`solve_nonlinear` on the pre-call state, with resids holding the negated
pre-call outputs) minus the pre-call outputs. -/
theorem apply_nonlinear_spec {m n : Nat}
    (solve_nonlinear : (Fin m → ℚ) → (Fin n → ℚ) → (Fin n → ℚ) → (Fin n → ℚ))
    (params : Fin m → ℚ) (unknowns resids : Fin n → ℚ) :
    (apply_nonlinear solve_nonlinear params unknowns resids).1 = unknowns ∧
    (apply_nonlinear solve_nonlinear params unknowns resids).2 =
      fun i => solve_nonlinear params unknowns (fun j => -unknowns j) i - unknowns i := by
  constructor <;> funext i <;> simp only [apply_nonlinear] <;> ring

/-! ## Claim C2: explicit/implicit connection merging in `Problem.setup`

Embedding of `problem.py` lines 110-118: the loop over the explicit
`connections` dict that raises whenever a target also appears in
`implicit_conns`, followed by `connections.update(implicit_conns)`. -/

/-- The error message of `problem.py` lines 113-114. -/
def conflict_msg (tgt esrc isrc : String) : String :=
  "'" ++ tgt ++ "' is explicitly connected to '" ++ esrc ++
    "' but implicitly connected to '" ++ isrc ++ "'"

/-- Embedding of the conflict check plus merge in `Problem.setup`
(`problem.py` lines 110-118).  The loop raises at the first explicit
target that is also a key of the implicit map; otherwise the implicit
entries are assigned into the explicit dict. -/
def merge_connections (connections implicit_conns : List (String × String)) :
    Except String (List (String × String)) :=
  match connections.find? (fun kv => (alookup implicit_conns kv.1).isSome) with
  | some kv =>
      Except.error (conflict_msg kv.1 kv.2 ((alookup implicit_conns kv.1).getD ""))
  | none => Except.ok (dict_update connections implicit_conns)

/-- Claim C2 counterexample: an explicit connection `t → s` together with
an implicit connection `t → s` *to the same source* still raises; the
source compares no sources, it raises whenever the target is present in
both maps.  This refutes the claim that setup merges without error when
the explicit and implicit connections name the same source. -/
theorem merge_connections_same_source_conflict :
    merge_connections [("t", "s")] [("t", "s")] =
      Except.error (conflict_msg "t" "s" "s") := by rfl

/-- Claim C2 (amended): setup fails, naming both sources, exactly when
some target has both an explicit and an implicit connection — even when
the two name the same source; when no target has both, the merge succeeds
and each target maps to its explicit source when it has one, otherwise to
its implicit source. -/
theorem merge_connections_spec (connections implicit_conns : List (String × String))
    (hnd : (implicit_conns.map Prod.fst).Nodup) :
    ((merge_connections connections implicit_conns).isOk =
        connections.all (fun kv => (alookup implicit_conns kv.1).isNone))
  ∧ (∀ msg, merge_connections connections implicit_conns = Except.error msg →
      ∃ kv ∈ connections, ∃ isrc, alookup implicit_conns kv.1 = some isrc ∧
        msg = conflict_msg kv.1 kv.2 isrc)
  ∧ (∀ merged, merge_connections connections implicit_conns = Except.ok merged →
      ∀ t, alookup merged t = (alookup connections t).or (alookup implicit_conns t)) := by
  refine ⟨?_, ?_, ?_⟩
  · unfold merge_connections
    cases hf : connections.find? (fun kv => (alookup implicit_conns kv.1).isSome) with
    | none =>
      have hall := List.find?_eq_none.mp hf
      have hA : connections.all (fun kv => (alookup implicit_conns kv.1).isNone) = true := by
        rw [List.all_eq_true]
        intro kv hkv
        have h1 := hall kv hkv
        rw [Option.isNone_iff_eq_none]
        cases h : alookup implicit_conns kv.1 with
        | none => rfl
        | some w => rw [h] at h1; simp at h1
      rw [hA]
      rfl
    | some kv =>
      have hmem := List.mem_of_find?_eq_some hf
      have hp := List.find?_some hf
      have hA : connections.all (fun kv => (alookup implicit_conns kv.1).isNone) = false := by
        rw [Bool.eq_false_iff]
        intro hall
        have h1 := (List.all_eq_true.mp hall) kv hmem
        rw [Option.isNone_iff_eq_none] at h1
        rw [h1] at hp
        simp at hp
      rw [hA]
      rfl
  · intro msg hmsg
    unfold merge_connections at hmsg
    cases hf : connections.find? (fun kv => (alookup implicit_conns kv.1).isSome) with
    | none => rw [hf] at hmsg; simp at hmsg
    | some kv =>
      rw [hf] at hmsg
      have hmem := List.mem_of_find?_eq_some hf
      have hp := List.find?_some hf
      obtain ⟨isrc, hisrc⟩ : ∃ isrc, alookup implicit_conns kv.1 = some isrc := by
        cases h : alookup implicit_conns kv.1 with
        | none => rw [h] at hp; simp at hp
        | some w => exact ⟨w, rfl⟩
      refine ⟨kv, hmem, isrc, hisrc, ?_⟩
      simp only [Except.error.injEq] at hmsg
      rw [← hmsg, hisrc]
      rfl
  · intro merged hok t
    unfold merge_connections at hok
    cases hf : connections.find? (fun kv => (alookup implicit_conns kv.1).isSome) with
    | some kv => rw [hf] at hok; simp at hok
    | none =>
      rw [hf] at hok
      simp only [Except.ok.injEq] at hok
      subst hok
      rw [alookup_dict_update _ _ _ hnd]
      have hall := List.find?_eq_none.mp hf
      cases hc : alookup connections t with
      | none =>
        cases him : alookup implicit_conns t <;> rfl
      | some v =>
        have hmem := mem_of_alookup_eq_some hc
        have him : alookup implicit_conns t = none := by
          cases h : alookup implicit_conns t with
          | none => rfl
          | some w => exact absurd (by simp [h]) (hall (t, v) hmem)
        rw [him]
        rfl

/-- Witness for the amended C2 theorem at a concrete conflict-free input:
explicit `t1 → s1` plus implicit `t2 → s2` merges without error. -/
theorem merge_connections_spec_witness :
    (merge_connections [("t1", "s1")] [("t2", "s2")]).isOk = true := by
  have h := (merge_connections_spec [("t1", "s1")] [("t2", "s2")] (by decide)).1
  rw [h]
  decide

/-! ## Claim C5: unit conversions (`_setup_units`)

Embedding of `problem.py` lines 525-568.  The external unit-conversion
utility `get_conversion_tuple` (spec section 6) is a parameter `conv`; an
`Except.error` result models the `TypeError("Incompatible units")` it
raises when no linear conversion exists. -/

/-- Variable metadata, restricted to the fields the connection phase
reads and writes. -/
structure VarMeta where
  relative_name : String
  units : Option String := none
  unit_conv : Option (ℚ × ℚ) := none
deriving DecidableEq

/-- In-place mutation of the metadata object stored under key `k`
(Python's `tmeta['unit_conv'] = ...` through the dict reference). -/
def set_value {α β : Type} [DecidableEq α] (d : List (α × β)) (k : α) (v : β) :
    List (α × β) :=
  d.map (fun kv => if kv.1 = k then (k, v) else kv)

theorem alookup_set_value {α β : Type} [DecidableEq α] (d : List (α × β)) (k : α) (v : β)
    (t : α) :
    alookup (set_value d k v) t =
      if t = k then (if (alookup d k).isSome then some v else none)
      else alookup d t :=
  alookup_map_overwrite d k v t

/-- The incompatible-units message of `problem.py` lines 558-560. -/
def incompatible_msg (smeta tmeta : VarMeta) : String :=
  "Unit '" ++ smeta.units.getD "" ++ "' in source '" ++ smeta.relative_name ++
    "' is incompatible with unit '" ++ tmeta.units.getD "" ++ "' in target '" ++
    tmeta.relative_name ++ "'."

/-- One iteration of the `for target, source in connections.items()` loop
of `_setup_units` (`problem.py` lines 543-568). -/
def setup_units_step (conv : String → String → Except Unit (ℚ × ℚ))
    (params_dict unknowns_dict : List (String × VarMeta))
    (target source : String) :
    Except String (List (String × VarMeta) × List (String × VarMeta)) :=
  match alookup params_dict target, alookup unknowns_dict source with
  | some tmeta, some smeta =>
    -- units must be in both src and target to have a conversion
    match tmeta.units, smeta.units with
    | some tgt_unit, some src_unit =>
      match conv src_unit tgt_unit with
      | Except.error _ => Except.error (incompatible_msg smeta tmeta)
      | Except.ok (scale, offset) =>
        -- if units are not equivalent, store the unit conversion tuple
        -- in the parameter metadata
        if scale ≠ 1 ∨ offset ≠ 0 then
          Except.ok (set_value params_dict target
            { tmeta with unit_conv := some (scale, offset) }, unknowns_dict)
        else Except.ok (params_dict, unknowns_dict)
    | _, _ => Except.ok (params_dict, unknowns_dict)
  | _, _ => Except.error "KeyError"

/-- The whole of `_setup_units`: the per-connection step folded over the
merged connection dict. -/
def setup_units (conv : String → String → Except Unit (ℚ × ℚ))
    (connections : List (String × String))
    (params_dict unknowns_dict : List (String × VarMeta)) :
    Except String (List (String × VarMeta) × List (String × VarMeta)) :=
  connections.foldlM (fun pu c => setup_units_step conv pu.1 pu.2 c.1 c.2)
    (params_dict, unknowns_dict)

/-- Claim C5: for every connection processed at setup, a unit-conversion
tuple is stored on the target parameter's metadata exactly when both
endpoints declare units and the computed conversion is non-identity
(scale ≠ 1 or offset ≠ 0); otherwise the target's metadata is returned
unchanged; metadata of other parameters and the whole unknowns dict
(the source side) are never modified. -/
theorem setup_units_step_spec
    (conv : String → String → Except Unit (ℚ × ℚ))
    (params_dict unknowns_dict : List (String × VarMeta))
    (target source : String) (tmeta smeta : VarMeta)
    (p' u' : List (String × VarMeta))
    (ht : alookup params_dict target = some tmeta)
    (hs : alookup unknowns_dict source = some smeta)
    (hok : setup_units_step conv params_dict unknowns_dict target source =
             Except.ok (p', u')) :
    u' = unknowns_dict
  ∧ (∀ t, t ≠ target → alookup p' t = alookup params_dict t)
  ∧ ∃ tmeta', alookup p' target = some tmeta' ∧
      ((∃ su tu s o, smeta.units = some su ∧ tmeta.units = some tu ∧
          conv su tu = Except.ok (s, o) ∧ (s ≠ 1 ∨ o ≠ 0) ∧
          tmeta' = { tmeta with unit_conv := some (s, o) })
       ∨ (tmeta' = tmeta ∧
          ∀ su tu s o, smeta.units = some su → tmeta.units = some tu →
            conv su tu = Except.ok (s, o) → s = 1 ∧ o = 0)) := by
  unfold setup_units_step at hok
  rw [ht, hs] at hok
  dsimp only at hok
  split at hok
  next tgt_unit src_unit htu hsu =>
    split at hok
    next e hc => cases hok
    next scale offset hc =>
      by_cases hni : scale ≠ 1 ∨ offset ≠ 0
      · rw [if_pos hni] at hok
        simp only [Except.ok.injEq, Prod.mk.injEq] at hok
        obtain ⟨hp, hu⟩ := hok
        subst hp
        subst hu
        refine ⟨rfl, ?_, ?_⟩
        · intro t htn
          rw [alookup_set_value, if_neg htn]
        · refine ⟨{ tmeta with unit_conv := some (scale, offset) }, ?_, ?_⟩
          · rw [alookup_set_value, if_pos rfl, ht]
            rfl
          · exact Or.inl ⟨src_unit, tgt_unit, scale, offset, hsu, htu, hc, hni, rfl⟩
      · rw [if_neg hni] at hok
        simp only [Except.ok.injEq, Prod.mk.injEq] at hok
        obtain ⟨hp, hu⟩ := hok
        subst hp
        subst hu
        refine ⟨rfl, fun t _ => rfl, tmeta, ht, Or.inr ⟨rfl, ?_⟩⟩
        intro su tu s o hsu2 htu2 hc2
        rw [hsu] at hsu2
        rw [htu] at htu2
        cases hsu2
        cases htu2
        rw [hc] at hc2
        injection hc2 with hpair
        push_neg at hni
        exact ⟨(congrArg Prod.fst hpair).symm.trans hni.1,
               (congrArg Prod.snd hpair).symm.trans hni.2⟩
  next h12 =>
    simp only [Except.ok.injEq, Prod.mk.injEq] at hok
    obtain ⟨hp, hu⟩ := hok
    subst hp
    subst hu
    exact ⟨rfl, fun t _ => rfl, tmeta, ht,
      Or.inr ⟨rfl, fun su tu s o hsu2 htu2 _ => (h12 tu su htu2 hsu2).elim⟩⟩

/-- Example conversion table for the witness: degC to degF is the
pure-affine pair `(9/5, 32)`; identical units convert identically. -/
def conv_ex : String → String → Except Unit (ℚ × ℚ) := fun su tu =>
  if su = "degC" ∧ tu = "degF" then Except.ok (9/5, 32)
  else if su = tu then Except.ok (1, 0)
  else Except.error ()

def pd_c5 : List (String × VarMeta) :=
  [("comp:x", { relative_name := "x", units := some "degF" })]

def ud_c5 : List (String × VarMeta) :=
  [("src:y", { relative_name := "y", units := some "degC" })]

def pd_c5' : List (String × VarMeta) :=
  [("comp:x", { relative_name := "x", units := some "degF",
                unit_conv := some (9/5, 32) })]

/-- Witness for C5 at a concrete connection with a pure-offset
conversion. -/
theorem setup_units_step_spec_witness :
    (alookup pd_c5' "comp:x").isSome = true := by
  obtain ⟨-, -, tmeta', hlk, -⟩ :=
    setup_units_step_spec conv_ex pd_c5 ud_c5 "comp:x" "src:y"
      { relative_name := "x", units := some "degF" }
      { relative_name := "y", units := some "degC" }
      pd_c5' ud_c5 rfl rfl
      (by norm_num [setup_units_step, conv_ex, pd_c5, ud_c5, pd_c5', set_value])
  rw [hlk]
  rfl

/-! ## Claim C9: variable registration (`Component.add_param` /
`add_output` / `add_state`)

Embedding of `component.py` lines 30-136: `_check_val`, `_check_name`,
`_get_initial_val`, `_add_variable` and the three registration entry
points.  A `_NotSet` value is modelled as `none`. -/

/-- A Python value as stored in variable metadata: a numeric scalar, a
dense numeric array, or an opaque non-differentiable object. -/
inductive PyVal
  | num : ℚ → PyVal
  | arr : List ℚ → PyVal
  | obj : PyVal
deriving DecidableEq

/-- Modelled from the spec: `is_differentiable` lives in
`openmdao.util.types`, which is not under `src/`; per spec section 4.1,
differentiable values (numbers and dense arrays) are auto-sized and
anything else is flagged pass-by-reference. -/
def is_differentiable : PyVal → Bool
  | PyVal.num _ => true
  | PyVal.arr _ => true
  | PyVal.obj => false

/-- The metadata record `_add_variable` builds (`component.py` 53-75). -/
structure VarInfo where
  val : PyVal
  size : Nat
  shape : Option Nat
  pass_by_obj : Bool
  state : Bool
deriving DecidableEq

/-- Registration-time state of a `Component`. -/
structure Comp where
  pathname : String
  post_setup : Bool
  params_dict : List (String × VarInfo)
  unknowns_dict : List (String × VarInfo)
deriving DecidableEq

/-- `Component._get_initial_val` (`component.py` 37-44): an unset value
with shape 1 becomes the scalar 0, an unset value with shape n becomes a
zero-filled array; a set value is returned as is. -/
def get_initial_val (val : Option PyVal) (shape : Option Nat) : PyVal :=
  match val with
  | some v => v
  | none =>
    match shape with
    | some 1 => PyVal.num 0
    | some n => PyVal.arr (List.replicate n 0)
    | none => PyVal.num 0   -- unreachable: _check_val has already raised

/-- The `_check_val` error message (`component.py` 46-51). -/
def check_val_msg (var_type name : String) : String :=
  "Shape of " ++ var_type ++ " '" ++ name ++ "' must be specified because 'val' is not set"

/-- `Component._check_name` (`component.py` 130-136).  The post-setup
branch of the source passes the format string and its arguments to
`RuntimeError` unformatted (a `%`/`,` slip); we record the template text. -/
def check_name (c : Comp) (name : String) : Except String Unit :=
  if c.post_setup then
    Except.error "%s: can't add variable '%s' because setup has already been called"
  else if (alookup c.params_dict name).isSome ∨ (alookup c.unknowns_dict name).isSome then
    Except.error (c.pathname ++ ": variable '" ++ name ++ "' already exists")
  else Except.ok ()

/-- `Component._add_variable` (`component.py` 53-75): validate, then build
the sized metadata record. -/
def add_variable (c : Comp) (name : String) (val : Option PyVal) (shape : Option Nat)
    (pass_by_obj : Bool) (var_type : String) : Except String VarInfo :=
  -- self._check_val(name, var_type, val, shape)
  if val.isNone ∧ shape.isNone then
    Except.error (check_val_msg var_type name)
  else
    -- self._check_name(name)
    match check_name c name with
    | Except.error e => Except.error e
    | Except.ok _ =>
      let v := get_initial_val val shape
      let base : VarInfo :=
        if is_differentiable v && !pass_by_obj then
          match v with
          | PyVal.arr l =>
              { val := v, size := l.length, shape := some l.length,
                pass_by_obj := pass_by_obj, state := false }
          | _ =>
              { val := v, size := 1, shape := some 1,
                pass_by_obj := pass_by_obj, state := false }
        else
          { val := v, size := 0, shape := shape, pass_by_obj := true, state := false }
      -- if isinstance(shape, int) and shape > 1: args['shape'] = (shape,)
      match shape with
      | some n => if 1 < n then Except.ok { base with shape := some n } else Except.ok base
      | none => Except.ok base

/-- `Component.add_param` (`component.py` 77-78). -/
def add_param (c : Comp) (name : String) (val : Option PyVal) (shape : Option Nat)
    (pass_by_obj : Bool) : Except String Comp :=
  match add_variable c name val shape pass_by_obj "param" with
  | Except.error e => Except.error e
  | Except.ok meta =>
      Except.ok { c with params_dict := dict_assign c.params_dict name meta }

/-- `Component.add_output` (`component.py` 80-81). -/
def add_output (c : Comp) (name : String) (val : Option PyVal) (shape : Option Nat)
    (pass_by_obj : Bool) : Except String Comp :=
  match add_variable c name val shape pass_by_obj "output" with
  | Except.error e => Except.error e
  | Except.ok meta =>
      Except.ok { c with unknowns_dict := dict_assign c.unknowns_dict name meta }

/-- `Component.add_state` (`component.py` 83-86): like an output but
flagged `state`. -/
def add_state (c : Comp) (name : String) (val : Option PyVal) (shape : Option Nat)
    (pass_by_obj : Bool) : Except String Comp :=
  match add_variable c name val shape pass_by_obj "state" with
  | Except.error e => Except.error e
  | Except.ok meta =>
      Except.ok { c with unknowns_dict := dict_assign c.unknowns_dict name { meta with state := true } }

theorem except_isOk_false_iff {ε γ : Type} (x : Except ε γ) :
    x.isOk = false ↔ ∃ e, x = Except.error e := by
  cases x with
  | error e =>
    constructor
    · intro _; exact ⟨e, rfl⟩
    · intro _; rfl
  | ok a =>
    constructor
    · intro h; cases h
    · rintro ⟨e, h⟩; cases h

theorem add_variable_fails (c : Comp) (name : String) (val : Option PyVal)
    (shape : Option Nat) (pbo : Bool) (vt : String)
    (h : c.post_setup = true ∨ (alookup c.params_dict name).isSome = true
         ∨ (alookup c.unknowns_dict name).isSome = true) :
    (add_variable c name val shape pbo vt).isOk = false := by
  have hcn : ∃ e, check_name c name = Except.error e := by
    unfold check_name
    by_cases hps : c.post_setup = true
    · rw [if_pos hps]
      exact ⟨_, rfl⟩
    · rw [if_neg hps]
      rcases h with h | h | h
      · exact absurd h hps
      · rw [if_pos (Or.inl h)]
        exact ⟨_, rfl⟩
      · rw [if_pos (Or.inr h)]
        exact ⟨_, rfl⟩
  obtain ⟨e, he⟩ := hcn
  unfold add_variable
  split
  · rfl
  · rw [he]
    rfl

/-- Claim C9: registering a variable (via `add_param`, `add_output` or
`add_state`) whose name already exists among the component's params or
unknowns fails, and registering any variable after setup has finalized
the component fails; the failure is an `Except.error`, so the existing
registry dicts are returned unchanged (the updated component is only
built in the `ok` branch, after `_check_name` has passed). -/
theorem add_duplicate_or_late_fails (c : Comp) (name : String)
    (val : Option PyVal) (shape : Option Nat) (pbo : Bool)
    (h : c.post_setup = true ∨ (alookup c.params_dict name).isSome = true
         ∨ (alookup c.unknowns_dict name).isSome = true) :
    (add_param c name val shape pbo).isOk = false
  ∧ (add_output c name val shape pbo).isOk = false
  ∧ (add_state c name val shape pbo).isOk = false := by
  refine ⟨?_, ?_, ?_⟩
  · obtain ⟨e, he⟩ := (except_isOk_false_iff _).mp (add_variable_fails c name val shape pbo "param" h)
    unfold add_param
    rw [he]
    rfl
  · obtain ⟨e, he⟩ := (except_isOk_false_iff _).mp (add_variable_fails c name val shape pbo "output" h)
    unfold add_output
    rw [he]
    rfl
  · obtain ⟨e, he⟩ := (except_isOk_false_iff _).mp (add_variable_fails c name val shape pbo "state" h)
    unfold add_state
    rw [he]
    rfl

def comp_c9 : Comp :=
  { pathname := "sub:comp", post_setup := false,
    params_dict := [("x", { val := PyVal.num 2, size := 1, shape := some 1,
                            pass_by_obj := false, state := false })],
    unknowns_dict := [] }

/-- Witness for C9: re-registering the existing parameter `x` fails in
all three registration entry points. -/
theorem add_duplicate_or_late_fails_witness :
    (add_param comp_c9 "x" (some (PyVal.num 3)) none false).isOk = false
  ∧ (add_output comp_c9 "x" (some (PyVal.num 3)) none false).isOk = false
  ∧ (add_state comp_c9 "x" (some (PyVal.num 3)) none false).isOk = false :=
  add_duplicate_or_late_fails comp_c9 "x" (some (PyVal.num 3)) none false
    (Or.inr (Or.inl (by rfl)))

/-! ## Claim C6: implicit connections (`_get_implicit_connections`)

Embedding of `problem.py` lines 693-743: group unknowns and params by
relative name (the `setdefault(...).append(...)` loops), raise when a
relative name matches more than one unknown, otherwise connect every
parameter sharing a relative name with an unknown to that unknown's
(first, hence unique) absolute pathname. -/

/-- One `d.setdefault(r, []).append(a)` step on an ordered grouping dict. -/
def add_to_group (groups : List (String × List String)) (r a : String) :
    List (String × List String) :=
  match groups with
  | [] => [(r, [a])]
  | g :: rest =>
    if g.1 = r then (g.1, g.2 ++ [a]) :: rest
    else g :: add_to_group rest r a

/-- Group the absolute names of a metadata dict by relative name,
preserving group order (first occurrence) and in-group order (insertion),
as the `abs_unknowns` / `abs_params` loops do. -/
def group_by_rel (d : List (String × VarMeta)) : List (String × List String) :=
  d.foldl (fun acc kv => add_to_group acc kv.2.relative_name kv.1) []

/-- The absolute names in `d` whose metadata carries relative name `r`,
in insertion order. -/
def rel_matches (d : List (String × VarMeta)) (r : String) : List String :=
  (d.filter (fun kv => kv.2.relative_name == r)).map Prod.fst

theorem alookup_add_to_group (groups : List (String × List String)) (r a s : String) :
    alookup (add_to_group groups r a) s =
      if s = r then some (((alookup groups r).getD []) ++ [a])
      else alookup groups s := by
  induction groups with
  | nil =>
    by_cases h : s = r
    · subst h; simp [add_to_group]
    · have hne : ¬ r = s := fun he => h he.symm
      simp [add_to_group, h, hne]
  | cons g rest ih =>
    by_cases h1 : g.1 = r
    · by_cases h2 : s = r
      · subst h2
        simp [add_to_group, h1]
      · have hne : ¬ g.1 = s := fun he => h2 ((h1 ▸ he).symm ▸ rfl)
        have hrs : ¬ r = s := fun he => h2 he.symm
        simp [add_to_group, h1, h2, hne, hrs]
    · by_cases h2 : s = r
      · subst h2
        have hne : ¬ g.1 = s := fun he => h1 he
        simp [add_to_group, h1, hne, ih]
      · by_cases h3 : g.1 = s <;> simp [add_to_group, h1, h2, h3, ih]

theorem keys_add_to_group (groups : List (String × List String)) (r a : String) :
    (add_to_group groups r a).map Prod.fst =
      if (alookup groups r).isSome then groups.map Prod.fst
      else groups.map Prod.fst ++ [r] := by
  induction groups with
  | nil => simp [add_to_group]
  | cons g rest ih =>
    by_cases h1 : g.1 = r
    · simp [add_to_group, h1]
    · simp [add_to_group, h1, ih]
      split <;> simp

theorem group_fold_keys_nodup (d : List (String × VarMeta))
    (acc : List (String × List String)) (hacc : (acc.map Prod.fst).Nodup) :
    (((d.foldl (fun acc kv => add_to_group acc kv.2.relative_name kv.1) acc)).map
      Prod.fst).Nodup := by
  induction d generalizing acc with
  | nil => exact hacc
  | cons kv rest ih =>
    rw [List.foldl_cons]
    apply ih
    rw [keys_add_to_group]
    by_cases hsome : (alookup acc kv.2.relative_name).isSome
    · rw [if_pos hsome]
      exact hacc
    · rw [if_neg hsome]
      have hnone : alookup acc kv.2.relative_name = none := by
        cases hl : alookup acc kv.2.relative_name
        · rfl
        · rw [hl] at hsome; simp at hsome
      have hnm : kv.2.relative_name ∉ acc.map Prod.fst :=
        (alookup_eq_none_iff _ _).mp hnone
      refine List.Nodup.append hacc (List.nodup_singleton _) ?_
      intro x hx hx1
      rw [List.mem_singleton] at hx1
      exact hnm (hx1 ▸ hx)

theorem group_by_rel_keys_nodup (d : List (String × VarMeta)) :
    ((group_by_rel d).map Prod.fst).Nodup :=
  group_fold_keys_nodup d [] (by simp)

theorem rel_matches_cons (kv : String × VarMeta) (rest : List (String × VarMeta))
    (s : String) :
    rel_matches (kv :: rest) s =
      if kv.2.relative_name = s then kv.1 :: rel_matches rest s
      else rel_matches rest s := by
  unfold rel_matches
  by_cases h : kv.2.relative_name = s <;> simp [List.filter_cons, h]

theorem alookup_group_fold (d : List (String × VarMeta))
    (acc : List (String × List String)) (s : String) :
    alookup (d.foldl (fun acc kv => add_to_group acc kv.2.relative_name kv.1) acc) s =
      if (alookup acc s).isSome ∨ rel_matches d s ≠ [] then
        some (((alookup acc s).getD []) ++ rel_matches d s)
      else none := by
  induction d generalizing acc with
  | nil =>
    have hm : rel_matches [] s = [] := rfl
    rw [List.foldl_nil, hm]
    cases h : alookup acc s <;> simp [h]
  | cons kv rest ih =>
    rw [List.foldl_cons, ih, alookup_add_to_group, rel_matches_cons]
    by_cases h2 : s = kv.2.relative_name
    · rw [if_pos h2, if_pos (h2 ▸ rfl : kv.2.relative_name = s)]
      have hcons : (kv.1 :: rel_matches rest s) ≠ [] := by simp
      rw [if_pos (Or.inr hcons)]
      have : (some ((alookup acc (kv.2.relative_name)).getD [] ++ [kv.1])).isSome = true := rfl
      rw [if_pos (Or.inl this)]
      rw [← h2]
      simp
    · have h2' : ¬ kv.2.relative_name = s := fun he => h2 he.symm
      rw [if_neg h2, if_neg h2']

theorem alookup_group_by_rel (d : List (String × VarMeta)) (s : String) :
    alookup (group_by_rel d) s =
      if rel_matches d s = [] then none else some (rel_matches d s) := by
  unfold group_by_rel
  rw [alookup_group_fold]
  by_cases h : rel_matches d s = [] <;> simp [h]

theorem mem_rel_matches (d : List (String × VarMeta)) (r p : String) :
    p ∈ rel_matches d r ↔ ∃ m, (p, m) ∈ d ∧ m.relative_name = r := by
  unfold rel_matches
  constructor
  · intro h
    obtain ⟨kv, hkv, hfst⟩ := List.mem_map.mp h
    obtain ⟨hmem, hpred⟩ := List.mem_filter.mp hkv
    refine ⟨kv.2, ?_, by simpa using hpred⟩
    rw [← hfst]
    exact hmem
  · rintro ⟨m, hmem, hrel⟩
    exact List.mem_map.mpr ⟨(p, m), List.mem_filter.mpr ⟨hmem, by simpa using hrel⟩, rfl⟩

theorem mem_unique_of_nodup_keys {α β : Type} [DecidableEq α] {l : List (α × β)}
    (hnd : (l.map Prod.fst).Nodup) {k : α} {v1 v2 : β}
    (h1 : (k, v1) ∈ l) (h2 : (k, v2) ∈ l) : v1 = v2 := by
  have e1 := alookup_eq_some_of_mem hnd h1
  have e2 := alookup_eq_some_of_mem hnd h2
  rw [e1] at e2
  exact Option.some.inj e2

theorem foldl_append_eq_flatten {α β : Type} (l : List α) (f : α → List β)
    (init : List β) :
    l.foldl (fun acc x => acc ++ f x) init = init ++ (l.map f).flatten := by
  induction l generalizing init with
  | nil => simp
  | cons x rest ih => simp [ih]

theorem alookup_const_map (l : List String) (v : String) (p : String) :
    alookup (l.map (fun q => (q, v))) p = if p ∈ l then some v else none := by
  induction l with
  | nil => simp
  | cons q rest ih =>
    by_cases h : q = p
    · subst h; simp
    · have hne : ¬ p = q := fun he => h he.symm
      simp [h, ih, hne]

theorem alookup_flatten_segments (gs : List (String × List String))
    (pmatch : String → List String) (p s : String)
    (hnd : (gs.map Prod.fst).Nodup)
    (huniq : ∀ r1 r2, p ∈ pmatch r1 → p ∈ pmatch r2 → r1 = r2) :
    alookup ((gs.map (fun g => (pmatch g.1).map (fun q => (q, g.2.headD "")))).flatten) p
        = some s ↔
      ∃ g ∈ gs, p ∈ pmatch g.1 ∧ s = g.2.headD "" := by
  induction gs with
  | nil => simp
  | cons g rest ih =>
    rw [List.map_cons, List.flatten_cons, alookup_append, alookup_const_map]
    simp only [List.map_cons, List.nodup_cons] at hnd
    by_cases hmem : p ∈ pmatch g.1
    · rw [if_pos hmem]
      constructor
      · intro h
        exact ⟨g, List.mem_cons_self g rest, hmem, (Option.some.inj h).symm⟩
      · rintro ⟨g', hg', hpm', hs'⟩
        rcases List.mem_cons.mp hg' with hg' | hg'
        · subst hg'
          rw [hs']
          rfl
        · have hkey : g'.1 = g.1 := huniq g'.1 g.1 hpm' hmem
          exact absurd (hkey ▸ List.mem_map.mpr ⟨g', hg', rfl⟩) hnd.1
    · rw [if_neg hmem]
      show alookup _ p = some s ↔ _
      rw [ih hnd.2]
      constructor
      · rintro ⟨g', hg', h1, h2⟩
        exact ⟨g', List.mem_cons_of_mem _ hg', h1, h2⟩
      · rintro ⟨g', hg', h1, h2⟩
        rcases List.mem_cons.mp hg' with hg' | hg'
        · subst hg'
          exact absurd h1 hmem
        · exact ⟨g', hg', h1, h2⟩

/-- The ambiguity message of `problem.py` lines 734-735. -/
def ambiguity_msg (r : String) (lst : List String) : String :=
  "Promoted name '" ++ r ++ "' matches multiple unknowns: " ++ toString lst

/-- Embedding of `_get_implicit_connections` (`problem.py` 693-743).
The unknown groups carry distinct relative names, so each parameter is
assigned at most once and the dict assignments of the source build-up
are plain appends. -/
def get_implicit_connections (params_dict unknowns_dict : List (String × VarMeta)) :
    Except String (List (String × String)) :=
  match (group_by_rel unknowns_dict).find? (fun g => 1 < g.2.length) with
  | some g => Except.error (ambiguity_msg g.1 g.2)
  | none =>
    Except.ok ((group_by_rel unknowns_dict).foldl (fun conns g =>
      conns ++ ((alookup (group_by_rel params_dict) g.1).getD []).map
        (fun q => (q, g.2.headD ""))) [])

theorem mem_group_getD (d : List (String × VarMeta)) (r p : String) :
    p ∈ (alookup (group_by_rel d) r).getD [] ↔ p ∈ rel_matches d r := by
  rw [alookup_group_by_rel]
  by_cases h : rel_matches d r = [] <;> simp [h]

/-- Claim C6: resolving implicit connections fails, with an error naming
the ambiguous relative name and its matching absolute names, exactly when
two or more unknowns share the same relative name; when every unknown
relative name is unique, the returned connection map connects a parameter
`p` to `s` exactly when `p`'s relative name matches the relative name of
the unique unknown whose absolute pathname is `s`. -/
theorem get_implicit_connections_spec (params_dict unknowns_dict : List (String × VarMeta))
    (hpk : (params_dict.map Prod.fst).Nodup) :
    ((∃ msg, get_implicit_connections params_dict unknowns_dict = Except.error msg) ↔
        ∃ r, 2 ≤ (rel_matches unknowns_dict r).length)
  ∧ (∀ msg, get_implicit_connections params_dict unknowns_dict = Except.error msg →
        ∃ r, 2 ≤ (rel_matches unknowns_dict r).length ∧
          msg = ambiguity_msg r (rel_matches unknowns_dict r))
  ∧ (∀ conns, get_implicit_connections params_dict unknowns_dict = Except.ok conns →
        ∀ p s, alookup conns p = some s ↔
          ∃ pm, alookup params_dict p = some pm ∧
            rel_matches unknowns_dict pm.relative_name = [s]) := by
  have hugk := group_by_rel_keys_nodup unknowns_dict
  have hmem_char : ∀ g, g ∈ group_by_rel unknowns_dict →
      g.2 = rel_matches unknowns_dict g.1 ∧ rel_matches unknowns_dict g.1 ≠ [] := by
    intro g hg
    have := alookup_eq_some_of_mem hugk (show (g.1, g.2) ∈ _ from hg)
    rw [alookup_group_by_rel] at this
    by_cases h : rel_matches unknowns_dict g.1 = []
    · rw [if_pos h] at this; cases this
    · rw [if_neg h] at this
      exact ⟨(Option.some.inj this).symm, h⟩
  have herr_iff : (∃ g, (group_by_rel unknowns_dict).find? (fun g => 1 < g.2.length) = some g) ↔
      ∃ r, 2 ≤ (rel_matches unknowns_dict r).length := by
    constructor
    · rintro ⟨g, hg⟩
      have hmem := List.mem_of_find?_eq_some hg
      have hp := List.find?_some hg
      obtain ⟨heq, _⟩ := hmem_char g hmem
      refine ⟨g.1, ?_⟩
      rw [← heq]
      exact (by simpa using hp : 1 < g.2.length)
    · rintro ⟨r, hr⟩
      have hne : rel_matches unknowns_dict r ≠ [] := by
        intro h; rw [h] at hr; simp at hr
      have hlk : alookup (group_by_rel unknowns_dict) r = some (rel_matches unknowns_dict r) := by
        rw [alookup_group_by_rel, if_neg hne]
      have hmem := mem_of_alookup_eq_some hlk
      cases hf : (group_by_rel unknowns_dict).find? (fun g => 1 < g.2.length) with
      | some g => exact ⟨g, rfl⟩
      | none =>
        have := List.find?_eq_none.mp hf _ hmem
        simp only [decide_eq_true_eq] at this
        exact absurd hr this
  refine ⟨?_, ?_, ?_⟩
  · constructor
    · rintro ⟨msg, hmsg⟩
      unfold get_implicit_connections at hmsg
      rcases hf : (group_by_rel unknowns_dict).find? (fun g => 1 < g.2.length) with _ | g
      · rw [hf] at hmsg; cases hmsg
      · exact herr_iff.mp ⟨g, hf⟩
    · intro hr
      obtain ⟨g, hg⟩ := herr_iff.mpr hr
      refine ⟨ambiguity_msg g.1 g.2, ?_⟩
      unfold get_implicit_connections
      rw [hg]
  · intro msg hmsg
    unfold get_implicit_connections at hmsg
    rcases hf : (group_by_rel unknowns_dict).find? (fun g => 1 < g.2.length) with _ | g
    · rw [hf] at hmsg; cases hmsg
    · rw [hf] at hmsg
      have hmem := List.mem_of_find?_eq_some hf
      have hp := List.find?_some hf
      obtain ⟨heq, _⟩ := hmem_char g hmem
      refine ⟨g.1, ?_, ?_⟩
      · rw [← heq]
        exact (by simpa using hp : 1 < g.2.length)
      · rw [← heq]
        exact (Except.error.inj hmsg).symm
  · intro conns hok p s
    unfold get_implicit_connections at hok
    rcases hf : (group_by_rel unknowns_dict).find? (fun g => 1 < g.2.length) with _ | g
    swap
    · rw [hf] at hok; cases hok
    rw [hf] at hok
    have hnoamb := List.find?_eq_none.mp hf
    have hok2 := Except.ok.inj hok
    rw [foldl_append_eq_flatten, List.nil_append] at hok2
    subst hok2
    have huniq : ∀ r1 r2, p ∈ (alookup (group_by_rel params_dict) r1).getD [] →
        p ∈ (alookup (group_by_rel params_dict) r2).getD [] → r1 = r2 := by
      intro r1 r2 h1 h2
      rw [mem_group_getD] at h1 h2
      obtain ⟨m1, hm1, hr1⟩ := (mem_rel_matches _ _ _).mp h1
      obtain ⟨m2, hm2, hr2⟩ := (mem_rel_matches _ _ _).mp h2
      have := mem_unique_of_nodup_keys hpk hm1 hm2
      rw [← hr1, ← hr2, this]
    rw [alookup_flatten_segments _ _ p s hugk huniq]
    constructor
    · rintro ⟨g, hg, hpm, hs⟩
      obtain ⟨heq, hne⟩ := hmem_char g hg
      have hlen : g.2.length ≤ 1 := by
        have := hnoamb g hg
        simp only [decide_eq_true_eq, Nat.not_lt] at this
        exact this
      obtain ⟨x, hx⟩ : ∃ x, g.2 = [x] := by
        cases h2 : g.2 with
        | nil => rw [h2] at heq; exact absurd heq.symm hne
        | cons y ys =>
          cases h3 : ys with
          | nil =>
            subst h3
            exact ⟨y, rfl⟩
          | cons z zs =>
            rw [h2, h3] at hlen
            simp at hlen
      rw [mem_group_getD] at hpm
      obtain ⟨m, hm, hrel⟩ := (mem_rel_matches _ _ _).mp hpm
      refine ⟨m, alookup_eq_some_of_mem hpk hm, ?_⟩
      rw [hrel, ← heq, hx]
      rw [hx] at hs
      simp [hs]
    · rintro ⟨pm, hpm, hmatch⟩
      have hne : rel_matches unknowns_dict pm.relative_name ≠ [] := by
        rw [hmatch]; simp
      have hlk : alookup (group_by_rel unknowns_dict) pm.relative_name =
          some (rel_matches unknowns_dict pm.relative_name) := by
        rw [alookup_group_by_rel, if_neg hne]
      rw [hmatch] at hlk
      refine ⟨(pm.relative_name, [s]), mem_of_alookup_eq_some hlk, ?_, by simp⟩
      rw [mem_group_getD, mem_rel_matches]
      exact ⟨pm, mem_of_alookup_eq_some hpm, rfl⟩

def pd_c6 : List (String × VarMeta) :=
  [("comp1:x", { relative_name := "x" }), ("comp2:z", { relative_name := "z" })]

def ud_c6 : List (String × VarMeta) :=
  [("src:x", { relative_name := "x" }), ("src:w", { relative_name := "w" })]

/-- Witness for C6 at a concrete conflict-free model: parameter
`comp1:x` (relative name `x`) is implicitly connected to the unique
unknown `src:x` promoted to `x`. -/
theorem get_implicit_connections_spec_witness :
    alookup [("comp1:x", "src:x")] "comp1:x" = some "src:x" := by
  have h := (get_implicit_connections_spec pd_c6 ud_c6 (by decide)).2.2
    [("comp1:x", "src:x")] (by rfl) "comp1:x" "src:x"
  exact h.mpr ⟨{ relative_name := "x" }, rfl, rfl⟩

/-! ## Claims C3, C4, C8: the total-derivative engine (`Problem.calc_gradient`)

Embedding of `problem.py` lines 160-316.  The external linear solver
(`root.ln_solver.solve`) and whole-model finite-difference routine
(`root.fd_jacobian`) are function parameters; the unknowns `VecWrapper`
is modelled by its name-to-local-indices map (`get_local_idxs`) plus its
flat length.  Python local variables that survive loop iterations
(`in_idx`, `out_idx`) are threaded as `Option` state: `none` models
"never assigned", so that reading it raises the `NameError` Python
would raise, and `some` models the (possibly stale) last assignment. -/

/-- A dense matrix, row-major. -/
abbrev Mat := List (List ℚ)

def zeros (m n : Nat) : Mat := List.replicate m (List.replicate n 0)

/-- `dx[out_idx]`: fancy indexing into the flat solution vector. -/
def dx_at (dx : List ℚ) (idxs : List Nat) : List ℚ := idxs.map (fun k => dx.getD k 0)

/-- `a[:, c] = v`: overwrite column `c` of a matrix. -/
def set_col (a : Mat) (c : Nat) (v : List ℚ) : Mat :=
  (a.zip v).map (fun rv => rv.1.set c rv.2)

/-- The `'dict'`-format Jacobian under construction: `J[okey][ikey]` is
`None` until first written (`problem.py` 234-241). -/
abbrev JDict := List (String × List (String × Option Mat))

def jd_init (unknown_list param_list : List String) : JDict :=
  unknown_list.map (fun okey =>
    (okey, param_list.map (fun ikey => (ikey, (none : Option Mat)))))

/-- `J[o][i]` (keys are always present in our use, as `jd_init` creates
them all). -/
def jd_get (J : JDict) (o i : String) : Option Mat :=
  (alookup ((alookup J o).getD []) i).getD none

/-- `J[o][i] = m`. -/
def jd_set (J : JDict) (o i : String) (m : Mat) : JDict :=
  J.map (fun kv =>
    if kv.1 = o then
      (kv.1, kv.2.map (fun kv2 => if kv2.1 = i then (kv2.1, some m) else kv2))
    else kv)

/-- The state `Problem.calc_gradient` reads from the model, plus its two
external collaborators. -/
structure GradientInputs where
  /-- name → `unknowns.get_local_idxs(name)` for the top unknowns vector -/
  unknowns_idxs : List (String × List Nat)
  /-- `len(unknowns.vec)` -/
  vec_size : Nat
  /-- keys of the top params vector (used by the fd branch) -/
  params_keys : List String
  /-- `root._src` -/
  src : List (String × String)
  /-- `root.ln_solver.options['mode']` -/
  ln_solver_mode : String
  /-- `root.fd_options['force_fd']` -/
  force_fd : Bool
  /-- `root.ln_solver.solve(rhs, root, mode)` -/
  solve : List ℚ → String → List ℚ
  /-- `Jfd[okey, fd_ikey]` from `root.fd_jacobian(..., total_derivs=True)` -/
  fd_jac : String → String → Mat

/-- The index-resolution pattern of `problem.py` 267-272 and 288-293: try
the unknowns vector, then `root._src`; when neither resolves, the Python
local keeps its previous value (`prev`), or is undefined when there is
none. -/
def resolve_idx (unknowns_idxs : List (String × List Nat))
    (src : List (String × String)) (prev : Option (List Nat)) (name : String) :
    Option (List Nat) :=
  match alookup unknowns_idxs name with
  | some idxs => some idxs
  | none =>
    match alookup src name with
    | some psrc =>
      match alookup unknowns_idxs psrc with
      | some idxs => some idxs
      | none => prev
    | none => prev

structure GradLoopSt where
  rhs : List ℚ
  j : Nat
  in_idx : Option (List Nat)
  out_idx : Option (List Nat)
  J : JDict

/-- The body of `for item in output_list` (`problem.py` 286-312) in the
`'dict'` format (the `'array'` format never reaches this loop: its
initialization has already raised).  `jcol` is `j - jbase`, `in_len` is
`len(in_idx)`. -/
def grad_item_step (g : GradientInputs) (mode : String) (param : String)
    (dx : List ℚ) (jcol in_len : Nat)
    (st : Option (List Nat) × JDict) (item : String) :
    Except String (Option (List Nat) × JDict) :=
  match resolve_idx g.unknowns_idxs g.src st.1 item with
  | none => Except.error "NameError: name 'out_idx' is not defined"
  | some out_idx =>
    let nk := out_idx.length
    if mode = "fwd" then
      let cur := match jd_get st.2 item param with
        | none => zeros nk in_len          -- lazily allocated on first write
        | some a => a
      Except.ok (some out_idx,
        jd_set st.2 item param (set_col cur jcol (dx_at dx out_idx)))
    else
      let cur := match jd_get st.2 param item with
        | none => zeros in_len nk
        | some a => a
      Except.ok (some out_idx,
        jd_set st.2 param item (cur.set jcol (dx_at dx out_idx)))

/-- The body of `for param in input_list` (`problem.py` 265-314): resolve
`in_idx` (with stale fall-through), remember `jbase`, then for each basis
index set the rhs entry, solve, clear it, and scatter into `J`. -/
def grad_param_step (g : GradientInputs) (mode : String) (output_list : List String)
    (st : GradLoopSt) (param : String) : Except String GradLoopSt :=
  match resolve_idx g.unknowns_idxs g.src st.in_idx param with
  | none => Except.error "NameError: name 'in_idx' is not defined"
  | some in_idx =>
    (in_idx.foldlM (fun s irhs => do
        let rhs1 := s.rhs.set irhs 1
        let dx := g.solve rhs1 mode
        let rhs2 := rhs1.set irhs 0
        let inner ← output_list.foldlM
          (grad_item_step g mode param dx (s.j - st.j) in_idx.length)
          (s.out_idx, s.J)
        Except.ok { rhs := rhs2, j := s.j + 1, in_idx := some in_idx,
                    out_idx := inner.1, J := inner.2 })
      { st with in_idx := some in_idx })

inductive GradReturn
  | dict : JDict → GradReturn
  | arr : Mat → GradReturn

/-- Embedding of `Problem.calc_gradient` (`problem.py` 160-316). -/
def calc_gradient (g : GradientInputs) (param_list unknown_list : List String)
    (mode return_format : String) : Except String GradReturn :=
  if ¬ (mode = "auto" ∨ mode = "fwd" ∨ mode = "rev" ∨ mode = "fd") then
    Except.error "mode must be 'auto', 'fwd', 'rev', or 'fd'"
  else if ¬ (return_format = "array" ∨ return_format = "dict") then
    Except.error "return_format must be 'array' or 'dict'"
  else if mode = "fd" ∨ g.force_fd then
    -- full-model finite difference (problem.py 206-223); the source
    -- returns this nested dict whatever return_format says, remapping an
    -- ikey missing from params through the last matching _src alias
    Except.ok (GradReturn.dict (unknown_list.map (fun okey =>
      (okey, param_list.map (fun ikey =>
        (ikey, some (g.fd_jac okey
          (if ikey ∈ g.params_keys then ikey
           else match (g.src.filter (fun kv => kv.2 == ikey)).getLast? with
                | some kv => kv.1
                | none => ikey))))))))
  else
    -- root.clear_dparams(); dunknowns.vec[:] = 0; dresids.vec[:] = 0;
    -- root.jacobian(...): resets of external state, then rhs = zeros
    match (if return_format = "dict" then
        Except.ok (jd_init unknown_list param_list)
      else
        -- problem.py 244: `num_input = system.get_size(param_list)` --
        -- the name `system` is not defined anywhere in the module
        Except.error "NameError: name 'system' is not defined" :
        Except String JDict) with
    | Except.error e => Except.error e
    | Except.ok J0 =>
      match (if mode = "auto" then
          (if g.ln_solver_mode = "auto" then
            Except.error "Automatic mode selction not yet implemented."
          else Except.ok g.ln_solver_mode)
        else Except.ok mode : Except String String) with
      | Except.error e => Except.error e
      | Except.ok mode2 =>
        let lists := if mode2 = "fwd" then (param_list, unknown_list)
                     else (unknown_list, param_list)
        match lists.1.foldlM (grad_param_step g mode2 lists.2)
            { rhs := List.replicate g.vec_size 0, j := 0, in_idx := none,
              out_idx := none, J := J0 } with
        | Except.error e => Except.error e
        | Except.ok final => Except.ok (GradReturn.dict final.J)

/-- Claim C8: an invalid `mode` or `return_format` fails immediately with
the enumerated-value message, for every model state, solver and name
lists -- so no solve, finite difference or differential-vector mutation
can have happened (the error is returned without consulting `g`). -/
theorem calc_gradient_invalid_args (g : GradientInputs)
    (param_list unknown_list : List String) (mode return_format : String) :
    (¬ (mode = "auto" ∨ mode = "fwd" ∨ mode = "rev" ∨ mode = "fd") →
      calc_gradient g param_list unknown_list mode return_format =
        Except.error "mode must be 'auto', 'fwd', 'rev', or 'fd'")
  ∧ ((mode = "auto" ∨ mode = "fwd" ∨ mode = "rev" ∨ mode = "fd") →
     ¬ (return_format = "array" ∨ return_format = "dict") →
      calc_gradient g param_list unknown_list mode return_format =
        Except.error "return_format must be 'array' or 'dict'") := by
  constructor
  · intro h
    unfold calc_gradient
    rw [if_pos h]
  · intro hm hf
    unfold calc_gradient
    rw [if_neg (not_not_intro hm), if_pos hf]

def g_c8 : GradientInputs :=
  { unknowns_idxs := [("y", [0])], vec_size := 1, params_keys := ["x"],
    src := [], ln_solver_mode := "fwd", force_fd := false,
    solve := fun rhs _ => rhs, fd_jac := fun _ _ => [[1]] }

/-- Witness for C8 at a concrete invalid mode string. -/
theorem calc_gradient_invalid_args_witness :
    calc_gradient g_c8 ["x"] ["y"] "bogus" "array" =
      Except.error "mode must be 'auto', 'fwd', 'rev', or 'fd'" :=
  (calc_gradient_invalid_args g_c8 ["x"] ["y"] "bogus" "array").1 (by decide)

def g_c4 : GradientInputs :=
  { unknowns_idxs := [("y", [0])], vec_size := 1, params_keys := ["x"],
    src := [("x", "y")], ln_solver_mode := "fwd", force_fd := false,
    solve := fun rhs _ => rhs, fd_jac := fun _ _ => [[1]] }

/-- Claim C4 (code bug): with valid mode `'fwd'`, resolvable names and
`return_format = 'array'`, the dense path stops with a `NameError` --
`problem.py` line 244 reads the undefined name `system` (and line 309
would read the undefined `out_indices`) -- instead of returning the
`(total_output_size, total_input_size)` matrix the spec promises. -/
theorem calc_gradient_array_name_error :
    calc_gradient g_c4 ["x"] ["y"] "fwd" "array" =
      Except.error "NameError: name 'system' is not defined" := by rfl

def g_c3 : GradientInputs :=
  { unknowns_idxs := [("a", [0])], vec_size := 1, params_keys := ["a", "bogus"],
    src := [], ln_solver_mode := "fwd", force_fd := false,
    solve := fun rhs _ => rhs, fd_jac := fun _ _ => [[1]] }

/-- Claim C3 (code bug): requesting the gradient with respect to the
unresolvable name `bogus` (not a top unknown, not in `root._src`) does
not fail; the `in_idx` left over from the previous iteration (`a`'s
indices) is silently reused, and `bogus` receives a copy of `a`'s
Jacobian column instead of an explicit failure. -/
theorem calc_gradient_stale_index :
    calc_gradient g_c3 ["a", "bogus"] ["a"] "fwd" "dict" =
      Except.ok (GradReturn.dict
        [("a", [("a", some [[1]]), ("bogus", some [[1]])])]) := by rfl

/-! ## Claims C7, C10: the partial-derivative check
(`Problem.check_partial_derivatives`)

Embedding of `problem.py` lines 318-476 together with
`_assemble_deriv_data` (617-691).  Per component we model: the
shape-validation / skip-collection double loop (387-418), the fact that
the reverse and forward sweeps (420-462) fill each allocated `(u, p)`
block from `apply_linear` unless the pair is in the accumulated
`skip_keys` (in which case the block stays at its allocated zeros), the
per-component fd Jacobian, and the data assembly, which substitutes
zero matrices of the fd block's shape for skipped pairs (629-636).  The
numeric content of the sweeps is the per-unit `apply_linear` contract
and enters as the component-supplied functions `fwd` / `rev` / `fd`;
the printed norms are monotone images of these stored matrices and are
not modelled. -/

/-- A numpy array shape of rank 1 (`(n, none)`) or 2 (`(m, some n)`). -/
abbrev Shape := Nat × Option Nat

/-- `if len(user) < 2: user = (user[0], 1)` (problem.py 406-407). -/
def pad_shape (s : Shape) : Nat × Nat := (s.1, s.2.getD 1)

/-- What the check reads from one component. -/
structure CheckComp where
  pathname : String
  /-- `comp.fd_options['force_fd']` -/
  force_fd : Bool
  /-- `chain(params, states)` with `np.size(dinputs[p_name])` -/
  inputs : List (String × Nat)
  /-- unknown names with `np.size(dunknowns[u_name])` -/
  unknowns : List (String × Nat)
  /-- `comp._jacobian_cache`: shapes of the cached blocks, or `None` -/
  jacobian_cache : Option (List ((String × String) × Shape))
  /-- column-assembled result of the forward `apply_linear` sweep -/
  fwd : String → String → Mat
  /-- row-assembled result of the reverse `apply_linear` sweep -/
  rev : String → String → Mat
  /-- `comp.fd_jacobian(params, unknowns, resids, step_size=1e-6)` -/
  fd : String → String → Mat

/-- The shape-mismatch message of `problem.py` 410-414 (note the source
formats it as "should be p_size by u_size"). -/
def shape_msg (cname p_name u_name : String) (p_size u_size : Nat) : String :=
  "Jacobian in component '" ++ cname ++ "' between the variables '" ++ p_name ++
    "' and '" ++ u_name ++ "' is the wrong size. It should be " ++
    toString p_size ++ " by " ++ toString u_size

/-- One step of the inner `for u_name in unknowns` loop of the
key-allocation phase (`problem.py` 393-418): skip-collect pairs missing
from the cache, validate the shape of present ones. -/
def shape_check_step (c : CheckComp) (pp : String × Nat)
    (sk2 : List (String × String)) (uu : String × Nat) :
    Except String (List (String × String)) :=
  match c.jacobian_cache with
  | none => Except.ok sk2
  | some cache =>
    match alookup cache (uu.1, pp.1) with
    | none => Except.ok (sk2 ++ [(uu.1, pp.1)])
    | some shp =>
      if (pad_shape shp).1 ≠ uu.2 ∨ (pad_shape shp).2 ≠ pp.2 then
        Except.error (shape_msg c.pathname pp.1 uu.1 pp.2 uu.2)
      else Except.ok sk2

/-- The whole key-allocation phase: both loops of `problem.py` 387-418,
threading the `skip_keys` accumulator. -/
def check_jac_shapes (c : CheckComp) (skip0 : List (String × String)) :
    Except String (List (String × String)) :=
  c.inputs.foldlM (fun sk pp => c.unknowns.foldlM (shape_check_step c pp) sk) skip0

/-- `np.zeros(a.shape)`. -/
def zeros_like (a : Mat) : Mat := a.map (fun row => row.map (fun _ => 0))

/-- The three raw matrices `_assemble_deriv_data` stores per pair
(`ldata['J_fd'] / ['J_fwd'] / ['J_rev']`, problem.py 638-640). -/
structure DerivData where
  J_fd : Mat
  J_fwd : Mat
  J_rev : Mat
deriving DecidableEq

/-- `_assemble_deriv_data` (`problem.py` 617-640) for one component: for
every `(u, p)` pair, store the fd block plus either the swept
forward/reverse Jacobians or, for pairs in `skip_keys`, zero matrices of
the fd block's shape. -/
def assemble_comp_data (c : CheckComp) (skip : List (String × String)) :
    List ((String × String) × DerivData) :=
  c.inputs.flatMap (fun pp => c.unknowns.map (fun uu =>
    if (uu.1, pp.1) ∈ skip then
      ((uu.1, pp.1), { J_fd := c.fd uu.1 pp.1, J_fwd := zeros_like (c.fd uu.1 pp.1),
                       J_rev := zeros_like (c.fd uu.1 pp.1) })
    else
      ((uu.1, pp.1), { J_fd := c.fd uu.1 pp.1, J_fwd := c.fwd uu.1 pp.1,
                       J_rev := c.rev uu.1 pp.1 })))

/-- The per-component body of the check loop (`problem.py` 355-474):
validate shapes (collecting skips), then sweep and assemble.  An error
in the validation phase aborts before any sweep. -/
def check_component (c : CheckComp) (skip0 : List (String × String)) :
    Except String ((List ((String × String) × DerivData)) × List (String × String)) :=
  match check_jac_shapes c skip0 with
  | Except.error e => Except.error e
  | Except.ok skip => Except.ok (assemble_comp_data c skip, skip)

/-- `Problem.check_partial_derivatives`: loop over all components (comps
with `force_fd` are skipped), threading one `skip_keys` list that is
created once (`problem.py` 350) and never reset. -/
def check_partial_derivatives (comps : List CheckComp) :
    Except String (List (String × List ((String × String) × DerivData))) :=
  match comps.foldlM (fun acc c =>
      if c.force_fd then Except.ok acc
      else
        match check_component c acc.2 with
        | Except.error e => Except.error e
        | Except.ok (cdata, skip') =>
            Except.ok (acc.1 ++ [(c.pathname, cdata)], skip'))
    (([] : List (String × List ((String × String) × DerivData))),
     ([] : List (String × String))) with
  | Except.error e => Except.error e
  | Except.ok acc => Except.ok acc.1

/-- A cached block whose (padded) shape disagrees with
`(u_size, p_size)`. -/
def bad_shape (c : CheckComp) (pp uu : String × Nat) : Prop :=
  ∃ cache shp, c.jacobian_cache = some cache ∧
    alookup cache (uu.1, pp.1) = some shp ∧
    ((pad_shape shp).1 ≠ uu.2 ∨ (pad_shape shp).2 ≠ pp.2)

theorem shape_check_step_error_iff (c : CheckComp) (pp : String × Nat)
    (sk : List (String × String)) (uu : String × Nat) (msg : String) :
    shape_check_step c pp sk uu = Except.error msg →
      bad_shape c pp uu ∧ msg = shape_msg c.pathname pp.1 uu.1 pp.2 uu.2 := by
  intro h
  unfold shape_check_step at h
  cases hc : c.jacobian_cache with
  | none => rw [hc] at h; cases h
  | some cache =>
    rw [hc] at h
    dsimp only at h
    cases hl : alookup cache (uu.1, pp.1) with
    | none => rw [hl] at h; cases h
    | some shp =>
      rw [hl] at h
      dsimp only at h
      by_cases hb : (pad_shape shp).1 ≠ uu.2 ∨ (pad_shape shp).2 ≠ pp.2
      · rw [if_pos hb] at h
        exact ⟨⟨cache, shp, hc, hl, hb⟩, (Except.error.inj h).symm⟩
      · rw [if_neg hb] at h
        cases h

theorem shape_check_step_error_of_bad (c : CheckComp) (pp : String × Nat)
    (sk : List (String × String)) (uu : String × Nat)
    (hb : bad_shape c pp uu) :
    shape_check_step c pp sk uu =
      Except.error (shape_msg c.pathname pp.1 uu.1 pp.2 uu.2) := by
  obtain ⟨cache, shp, hc, hl, hbad⟩ := hb
  unfold shape_check_step
  rw [hc]
  dsimp only
  rw [hl]
  dsimp only
  rw [if_pos hbad]

theorem inner_fold_error (c : CheckComp) (pp : String × Nat)
    (us : List (String × Nat)) (sk : List (String × String)) (msg : String)
    (h : us.foldlM (shape_check_step c pp) sk = Except.error msg) :
    ∃ uu ∈ us, bad_shape c pp uu ∧
      msg = shape_msg c.pathname pp.1 uu.1 pp.2 uu.2 := by
  induction us generalizing sk with
  | nil => rw [List.foldlM_nil] at h; cases h
  | cons uu rest ih =>
    rw [List.foldlM_cons] at h
    cases hs : shape_check_step c pp sk uu with
    | error e =>
      rw [hs] at h
      have he : e = msg := Except.error.inj h
      obtain ⟨hb, hm⟩ := shape_check_step_error_iff c pp sk uu e hs
      exact ⟨uu, List.mem_cons_self uu rest, hb, he ▸ hm⟩
    | ok sk2 =>
      rw [hs] at h
      obtain ⟨uu', hmem, hb, hm⟩ := ih sk2 h
      exact ⟨uu', List.mem_cons_of_mem _ hmem, hb, hm⟩

theorem inner_fold_bad (c : CheckComp) (pp : String × Nat)
    (us : List (String × Nat)) (sk : List (String × String)) (uu : String × Nat)
    (hmem : uu ∈ us) (hb : bad_shape c pp uu) :
    (us.foldlM (shape_check_step c pp) sk).isOk = false := by
  induction us generalizing sk with
  | nil => cases hmem
  | cons uu' rest ih =>
    rw [List.foldlM_cons]
    rcases List.mem_cons.mp hmem with he | hmem'
    · subst he
      rw [shape_check_step_error_of_bad c pp sk uu hb]
      rfl
    · cases hs : shape_check_step c pp sk uu' with
      | error e => rfl
      | ok sk2 =>
        show ((rest.foldlM (shape_check_step c pp) sk2)).isOk = false
        exact ih sk2 hmem'

theorem outer_fold_error (c : CheckComp) (ps : List (String × Nat))
    (skip0 : List (String × String)) (msg : String)
    (h : ps.foldlM (fun sk pp => c.unknowns.foldlM (shape_check_step c pp) sk) skip0 =
           Except.error msg) :
    ∃ pp ∈ ps, ∃ uu ∈ c.unknowns, bad_shape c pp uu ∧
      msg = shape_msg c.pathname pp.1 uu.1 pp.2 uu.2 := by
  induction ps generalizing skip0 with
  | nil => rw [List.foldlM_nil] at h; cases h
  | cons pp rest ih =>
    rw [List.foldlM_cons] at h
    cases hs : c.unknowns.foldlM (shape_check_step c pp) skip0 with
    | error e =>
      rw [hs] at h
      have he : e = msg := Except.error.inj h
      obtain ⟨uu, hmem, hb, hm⟩ := inner_fold_error c pp c.unknowns skip0 e hs
      exact ⟨pp, List.mem_cons_self pp rest, uu, hmem, hb, he ▸ hm⟩
    | ok sk2 =>
      rw [hs] at h
      obtain ⟨pp', hpm, uu, hum, hb, hm⟩ := ih sk2 h
      exact ⟨pp', List.mem_cons_of_mem _ hpm, uu, hum, hb, hm⟩

theorem outer_fold_bad (c : CheckComp) (ps : List (String × Nat))
    (skip0 : List (String × String)) (pp uu : String × Nat)
    (hpm : pp ∈ ps) (hum : uu ∈ c.unknowns) (hb : bad_shape c pp uu) :
    (ps.foldlM (fun sk pp => c.unknowns.foldlM (shape_check_step c pp) sk)
      skip0).isOk = false := by
  induction ps generalizing skip0 with
  | nil => cases hpm
  | cons pp' rest ih =>
    rw [List.foldlM_cons]
    rcases List.mem_cons.mp hpm with he | hpm'
    · subst he
      obtain ⟨e, he2⟩ := (except_isOk_false_iff _).mp
        (inner_fold_bad c pp c.unknowns skip0 uu hum hb)
      rw [he2]
      rfl
    · cases hs : c.unknowns.foldlM (shape_check_step c pp') skip0 with
      | error e => rfl
      | ok sk2 => exact ih sk2 hpm'

/-- Claim C7: if the component's Jacobian cache contains a block for a
checked `(output, input)` pair whose padded shape differs from
`(output_size, input_size)`, the per-component check fails -- so no sweep
runs and no data is assembled for the component -- and any such failure
message is the shape-mismatch message naming the component and the two
variable names of an offending pair. -/
theorem check_partials_shape_error (c : CheckComp) (skip0 : List (String × String))
    (p_name u_name : String) (p_size u_size : Nat)
    (cache : List ((String × String) × Shape)) (shp : Shape)
    (hp : (p_name, p_size) ∈ c.inputs) (hu : (u_name, u_size) ∈ c.unknowns)
    (hc : c.jacobian_cache = some cache)
    (hshp : alookup cache (u_name, p_name) = some shp)
    (hbad : (pad_shape shp).1 ≠ u_size ∨ (pad_shape shp).2 ≠ p_size) :
    (check_component c skip0).isOk = false
  ∧ (∀ msg, check_component c skip0 = Except.error msg →
      ∃ p u ps us, (p, ps) ∈ c.inputs ∧ (u, us) ∈ c.unknowns ∧
        (∃ shp2, alookup cache (u, p) = some shp2 ∧
          ((pad_shape shp2).1 ≠ us ∨ (pad_shape shp2).2 ≠ ps)) ∧
        msg = shape_msg c.pathname p u ps us) := by
  have hbadp : bad_shape c (p_name, p_size) (u_name, u_size) :=
    ⟨cache, shp, hc, hshp, hbad⟩
  constructor
  · have hful := outer_fold_bad c c.inputs skip0 (p_name, p_size) (u_name, u_size)
      hp hu hbadp
    obtain ⟨e, he⟩ := (except_isOk_false_iff _).mp hful
    unfold check_component check_jac_shapes
    rw [he]
    rfl
  · intro msg hmsg
    have hjerr : check_jac_shapes c skip0 = Except.error msg := by
      unfold check_component at hmsg
      cases hj : check_jac_shapes c skip0 with
      | error e =>
        rw [hj] at hmsg
        dsimp only at hmsg
        exact congrArg Except.error (Except.error.inj hmsg)
      | ok sk =>
        rw [hj] at hmsg
        dsimp only at hmsg
        cases hmsg
    obtain ⟨pp, hpm, uu, hum, hb, hm⟩ :=
      outer_fold_error c c.inputs skip0 msg hjerr
    obtain ⟨cache2, shp2, hc2, hl2, hb2⟩ := hb
    rw [hc] at hc2
    have hcc : cache2 = cache := (Option.some.inj hc2).symm
    subst hcc
    exact ⟨pp.1, uu.1, pp.2, uu.2, hpm, hum, ⟨shp2, hl2, hb2⟩, hm⟩

def c7_comp : CheckComp :=
  { pathname := "g:c", force_fd := false,
    inputs := [("x", 2)], unknowns := [("y", 1)],
    jacobian_cache := some [(("y", "x"), (3, some 1))],
    fwd := fun _ _ => [[0, 0]], rev := fun _ _ => [[0, 0]],
    fd := fun _ _ => [[0, 0]] }

/-- Witness for C7: a cached block of shape (3, 1) for a pair of sizes
(1, 2) makes the per-component check fail. -/
theorem check_partials_shape_error_witness :
    (check_component c7_comp []).isOk = false :=
  (check_partials_shape_error c7_comp [] "x" "y" 2 1
    [(("y", "x"), (3, some 1))] (3, some 1)
    (by decide) (by decide) rfl (by decide) (by decide)).1


theorem shape_check_step_mono (c : CheckComp) (pp : String × Nat)
    (sk sk' : List (String × String)) (uu : String × Nat)
    (h : shape_check_step c pp sk uu = Except.ok sk')
    (x : String × String) (hx : x ∈ sk) : x ∈ sk' := by
  unfold shape_check_step at h
  cases hc : c.jacobian_cache with
  | none =>
    rw [hc] at h
    dsimp only at h
    exact (Except.ok.inj h) ▸ hx
  | some cache =>
    rw [hc] at h
    dsimp only at h
    cases hl : alookup cache (uu.1, pp.1) with
    | none =>
      rw [hl] at h
      dsimp only at h
      rw [← Except.ok.inj h]
      exact List.mem_append_left _ hx
    | some shp =>
      rw [hl] at h
      dsimp only at h
      split at h
      · cases h
      · exact (Except.ok.inj h) ▸ hx

theorem inner_fold_mono (c : CheckComp) (pp : String × Nat)
    (us : List (String × Nat)) (sk sk' : List (String × String))
    (h : us.foldlM (shape_check_step c pp) sk = Except.ok sk')
    (x : String × String) (hx : x ∈ sk) : x ∈ sk' := by
  induction us generalizing sk with
  | nil =>
    rw [List.foldlM_nil] at h
    exact (Except.ok.inj h) ▸ hx
  | cons uu rest ih =>
    rw [List.foldlM_cons] at h
    cases hs : shape_check_step c pp sk uu with
    | error e => rw [hs] at h; cases h
    | ok sk2 =>
      rw [hs] at h
      exact ih sk2 h (shape_check_step_mono c pp sk sk2 uu hs x hx)

theorem outer_fold_mono (c : CheckComp) (ps : List (String × Nat))
    (sk sk' : List (String × String))
    (h : ps.foldlM (fun sk pp => c.unknowns.foldlM (shape_check_step c pp) sk) sk =
           Except.ok sk')
    (x : String × String) (hx : x ∈ sk) : x ∈ sk' := by
  induction ps generalizing sk with
  | nil =>
    rw [List.foldlM_nil] at h
    exact (Except.ok.inj h) ▸ hx
  | cons pp rest ih =>
    rw [List.foldlM_cons] at h
    cases hs : c.unknowns.foldlM (shape_check_step c pp) sk with
    | error e => rw [hs] at h; cases h
    | ok sk2 =>
      rw [hs] at h
      exact ih sk2 h (inner_fold_mono c pp c.unknowns sk sk2 hs x hx)

theorem inner_fold_adds (c : CheckComp) (pp : String × Nat)
    (us : List (String × Nat)) (sk sk' : List (String × String))
    (uu : String × Nat) (hm : uu ∈ us)
    (cache : List ((String × String) × Shape))
    (hcc : c.jacobian_cache = some cache)
    (hl : alookup cache (uu.1, pp.1) = none)
    (h : us.foldlM (shape_check_step c pp) sk = Except.ok sk') :
    (uu.1, pp.1) ∈ sk' := by
  induction us generalizing sk with
  | nil => cases hm
  | cons uu' rest ih =>
    rw [List.foldlM_cons] at h
    rcases List.mem_cons.mp hm with he | hm'
    · subst he
      have hstep : shape_check_step c pp sk uu = Except.ok (sk ++ [(uu.1, pp.1)]) := by
        unfold shape_check_step
        rw [hcc]
        dsimp only
        rw [hl]
      rw [hstep] at h
      exact inner_fold_mono c pp rest _ sk' h _
        (List.mem_append_right _ (List.mem_singleton.mpr rfl))
    · cases hs : shape_check_step c pp sk uu' with
      | error e => rw [hs] at h; cases h
      | ok sk2 =>
        rw [hs] at h
        exact ih sk2 hm' h

theorem outer_fold_adds (c : CheckComp) (ps : List (String × Nat))
    (sk sk' : List (String × String)) (pp uu : String × Nat)
    (hpm : pp ∈ ps) (hum : uu ∈ c.unknowns)
    (cache : List ((String × String) × Shape))
    (hcc : c.jacobian_cache = some cache)
    (hl : alookup cache (uu.1, pp.1) = none)
    (h : ps.foldlM (fun sk pp => c.unknowns.foldlM (shape_check_step c pp) sk) sk =
           Except.ok sk') :
    (uu.1, pp.1) ∈ sk' := by
  induction ps generalizing sk with
  | nil => cases hpm
  | cons pp' rest ih =>
    rw [List.foldlM_cons] at h
    rcases List.mem_cons.mp hpm with he | hpm'
    · subst he
      cases hs : c.unknowns.foldlM (shape_check_step c pp) sk with
      | error e => rw [hs] at h; cases h
      | ok sk2 =>
        rw [hs] at h
        exact outer_fold_mono c rest sk2 sk' h _
          (inner_fold_adds c pp c.unknowns sk sk2 uu hum cache hcc hl hs)
    · cases hs : c.unknowns.foldlM (shape_check_step c pp') sk with
      | error e => rw [hs] at h; cases h
      | ok sk2 =>
        rw [hs] at h
        exact ih sk2 hpm' h

theorem alookup_eq_of_uniform {α β : Type} [DecidableEq α] (l : List (α × β))
    (k : α) (v : β) (hex : ∃ x ∈ l, x.1 = k)
    (hall : ∀ x ∈ l, x.1 = k → x.2 = v) :
    alookup l k = some v := by
  induction l with
  | nil =>
    obtain ⟨x, hx, _⟩ := hex
    cases hx
  | cons y rest ih =>
    by_cases hk : y.1 = k
    · have hv : y.2 = v := hall y (List.mem_cons_self y rest) hk
      simp [hk, hv]
    · obtain ⟨x, hx, hxk⟩ := hex
      rcases List.mem_cons.mp hx with he | hx'
      · subst he
        exact absurd hxk hk
      · simp only [alookup_cons, hk, if_false]
        exact ih ⟨x, hx', hxk⟩ (fun z hz hzk => hall z (List.mem_cons_of_mem _ hz) hzk)

theorem assemble_lookup_skip (c : CheckComp) (skip : List (String × String))
    (u p : String) (usz psz : Nat)
    (hp : (p, psz) ∈ c.inputs) (hu : (u, usz) ∈ c.unknowns)
    (hsk : (u, p) ∈ skip) :
    alookup (assemble_comp_data c skip) (u, p) =
      some (DerivData.mk (c.fd u p) (zeros_like (c.fd u p))
        (zeros_like (c.fd u p))) := by
  apply alookup_eq_of_uniform
  · have hmem : ((u, p), DerivData.mk (c.fd u p) (zeros_like (c.fd u p))
        (zeros_like (c.fd u p))) ∈ assemble_comp_data c skip := by
      unfold assemble_comp_data
      apply List.mem_flatMap.mpr
      refine ⟨(p, psz), hp, ?_⟩
      apply List.mem_map.mpr
      refine ⟨(u, usz), hu, ?_⟩
      dsimp only
      rw [if_pos hsk]
    exact ⟨_, hmem, rfl⟩
  · intro x hx hxk
    unfold assemble_comp_data at hx
    obtain ⟨pp, hpp, hx2⟩ := List.mem_flatMap.mp hx
    obtain ⟨uu, huu, hx3⟩ := List.mem_map.mp hx2
    by_cases hc : (uu.1, pp.1) ∈ skip
    · rw [if_pos hc] at hx3
      subst hx3
      have h1 : uu.1 = u := congrArg Prod.fst hxk
      have h2 : pp.1 = p := congrArg Prod.snd hxk
      dsimp only
      rw [h1, h2]
    · rw [if_neg hc] at hx3
      subst hx3
      have h1 : uu.1 = u := congrArg Prod.fst hxk
      have h2 : pp.1 = p := congrArg Prod.snd hxk
      rw [h1, h2] at hc
      exact absurd hsk hc

theorem except_ok_bind {ε γ δ : Type} (a : γ) (f : γ → Except ε δ) :
    (Except.ok a >>= f) = f a := rfl

theorem except_error_bind {ε γ δ : Type} (e : ε) (f : γ → Except ε δ) :
    ((Except.error e : Except ε γ) >>= f) = Except.error e := rfl

/-- Claim C10: the `skip_keys` list accumulates across all components of
one `check_partial_derivatives` call and is never reset: when an earlier
component's cache lacks a block for the name pair `(u, p)`, any
later-checked component whose variables produce the same pair has its
forward and reverse Jacobians for that pair replaced by zero matrices
(of its own fd block's shape) in the returned data -- no matter what its
own Jacobian cache declares for the pair. -/
theorem check_partials_skip_leak (c1 c2 : CheckComp) (u p : String)
    (usz1 psz1 usz2 psz2 : Nat) (cache1 : List ((String × String) × Shape))
    (data : List (String × List ((String × String) × DerivData)))
    (hpath : c1.pathname ≠ c2.pathname)
    (hff1 : c1.force_fd = false) (hff2 : c2.force_fd = false)
    (hc1 : c1.jacobian_cache = some cache1)
    (hmiss : alookup cache1 (u, p) = none)
    (hp1 : (p, psz1) ∈ c1.inputs) (hu1 : (u, usz1) ∈ c1.unknowns)
    (hp2 : (p, psz2) ∈ c2.inputs) (hu2 : (u, usz2) ∈ c2.unknowns)
    (hok : check_partial_derivatives [c1, c2] = Except.ok data) :
    ∃ cdata2, alookup data c2.pathname = some cdata2 ∧
      alookup cdata2 (u, p) =
        some (DerivData.mk (c2.fd u p) (zeros_like (c2.fd u p))
          (zeros_like (c2.fd u p))) := by
  unfold check_partial_derivatives at hok
  simp only [List.foldlM_cons, List.foldlM_nil, hff1, hff2, Bool.false_eq_true,
    if_false] at hok
  cases h1 : check_component c1 [] with
  | error e =>
    simp only [h1, except_error_bind] at hok
    cases hok
  | ok pr1 =>
    obtain ⟨d1, s1⟩ := pr1
    simp only [h1, except_ok_bind, List.nil_append] at hok
    cases h2 : check_component c2 s1 with
    | error e =>
      simp only [h2, except_error_bind] at hok
      cases hok
    | ok pr2 =>
      obtain ⟨d2, s2⟩ := pr2
      simp only [h2, except_ok_bind, List.singleton_append, List.cons_append,
        List.nil_append] at hok
      have hdata : data = [(c1.pathname, d1), (c2.pathname, d2)] := by
        have := Except.ok.inj hok
        simpa using this.symm
      -- peel check_component of c1 into its validation result
      have hj1 : check_jac_shapes c1 [] = Except.ok s1 := by
        unfold check_component at h1
        cases hj : check_jac_shapes c1 [] with
        | error e =>
          rw [hj] at h1
          dsimp only at h1
          cases h1
        | ok sk =>
          rw [hj] at h1
          dsimp only at h1
          have h1' := Except.ok.inj h1
          have hsnd : sk = s1 := congrArg Prod.snd h1'
          rw [hsnd]
      have hd2 : d2 = assemble_comp_data c2 s2 ∧ check_jac_shapes c2 s1 = Except.ok s2 := by
        unfold check_component at h2
        cases hj : check_jac_shapes c2 s1 with
        | error e =>
          rw [hj] at h2
          dsimp only at h2
          cases h2
        | ok sk =>
          rw [hj] at h2
          dsimp only at h2
          have h2' := Except.ok.inj h2
          have hsk : sk = s2 := congrArg Prod.snd h2'
          have hda0 : assemble_comp_data c2 sk = d2 := congrArg Prod.fst h2'
          exact ⟨hsk ▸ hda0.symm, congrArg Except.ok hsk⟩
      -- the missing pair of c1 lands in s1 ...
      have hmem1 : (u, p) ∈ s1 :=
        outer_fold_adds c1 c1.inputs [] s1 (p, psz1) (u, usz1) hp1 hu1
          cache1 hc1 hmiss hj1
      -- ... and survives into c2's skip list
      have hmem2 : (u, p) ∈ s2 :=
        outer_fold_mono c2 c2.inputs s1 s2 hd2.2 (u, p) hmem1
      refine ⟨d2, ?_, ?_⟩
      · rw [hdata]
        have hne : ¬ c1.pathname = c2.pathname := hpath
        simp [hne]
      · rw [hd2.1]
        exact assemble_lookup_skip c2 s2 u p usz2 psz2 hp2 hu2 hmem2

def c10_comp1 : CheckComp :=
  { pathname := "g:c1", force_fd := false,
    inputs := [("p", 1)], unknowns := [("u", 1)],
    jacobian_cache := some [],
    fwd := fun _ _ => [[0]], rev := fun _ _ => [[0]], fd := fun _ _ => [[2]] }

def c10_comp2 : CheckComp :=
  { pathname := "g:c2", force_fd := false,
    inputs := [("p", 1)], unknowns := [("u", 1)],
    jacobian_cache := some [(("u", "p"), (1, some 1))],
    fwd := fun _ _ => [[3]], rev := fun _ _ => [[3]], fd := fun _ _ => [[3]] }

def c10_data : List (String × List ((String × String) × DerivData)) :=
  ((check_partial_derivatives [c10_comp1, c10_comp2]).toOption).getD []

/-- Witness for C10: component `g:c1` declares no block for `(u, p)`,
so in the same call component `g:c2` -- which declares a correctly
shaped, nonzero block for the pair -- still gets zero forward and
reverse Jacobians for `(u, p)` in the returned data. -/
theorem check_partials_skip_leak_witness :
    alookup ((alookup c10_data "g:c2").getD []) ("u", "p") =
      some (DerivData.mk [[3]] [[0]] [[0]]) := by
  obtain ⟨cd2, hlk, hval⟩ :=
    check_partials_skip_leak c10_comp1 c10_comp2 "u" "p" 1 1 1 1 [] c10_data
      (by decide) rfl rfl rfl rfl
      (by decide) (by decide) (by decide) (by decide)
      (by rfl)
  rw [show alookup c10_data "g:c2" = some cd2 from hlk]
  exact hval.trans rfl
